import Mathlib

/-! Shallow embedding of the bulk data-aggregation layer of the `pong-api`
table-tennis client (`tabletennis_api/models.py`, `tabletennis_api/managers.py`).

Python machine model used throughout:
* Python `int` is unbounded, so it is embedded as `Int` (counts as `Nat`).
* Fallible Python code (statements that can raise) is embedded in
  `Except PyError`.  Both the explicit parameter validations and the
  `ValueError` thrown by `int()` on an unparseable literal are `ValueError`
  at runtime in Python; they are kept apart here by provenance
  (`PyError.valueError msg` for the explicit `raise ValueError(msg)`
  statements, `PyError.parseError` for a failing `int()` conversion),
  which is exactly the distinction the error-handling spec draws between
  validation errors and data-dependent runtime errors.
* Python `dict` (insertion-ordered, last-write-wins) is embedded as an
  association list built by `pyDictInsert`.
* Python `set` iteration order is unspecified; where the source materialises
  a set into a list (`list(set(...))`) the embedding keeps the order of last
  appearance (`List.dedup`); no proved statement depends on that order.
-/

/-- Decidable equality for `Except`, used to evaluate the embedded
computations on concrete inputs. -/
instance {ε α : Type} [DecidableEq ε] [DecidableEq α] : DecidableEq (Except ε α) := fun x y =>
  match x, y with
  | Except.ok a, Except.ok b =>
    if h : a = b then Decidable.isTrue (congrArg Except.ok h)
    else Decidable.isFalse (fun hc => h (Except.ok.inj hc))
  | Except.error a, Except.error b =>
    if h : a = b then Decidable.isTrue (congrArg Except.error h)
    else Decidable.isFalse (fun hc => h (Except.error.inj hc))
  | Except.ok _, Except.error _ => Decidable.isFalse (fun hc => Except.noConfusion hc)
  | Except.error _, Except.ok _ => Decidable.isFalse (fun hc => Except.noConfusion hc)

/-- Python errors that the embedded code can raise.  `valueError msg` is an
explicit `raise ValueError(msg)`; `parseError` is the `ValueError` raised by
`int(s)` when `s` is not an integer literal. -/
inductive PyError where
  | valueError (msg : String)
  | parseError
deriving Repr, DecidableEq

/-- Characters stripped by Python `str.strip()` (ASCII whitespace; the extra
Unicode whitespace Python also strips plays no role in this code base). -/
def pySpace (c : Char) : Bool :=
  c = ' ' || c = '\t' || c = '\n' || c = '\r' || c.toNat = 11 || c.toNat = 12

/-- Python `s.strip()`: remove leading and trailing whitespace. -/
def pyStrip (s : String) : String :=
  String.mk (((s.toList.dropWhile pySpace).reverse.dropWhile pySpace).reverse)

/-- Value of a list of decimal digit characters. -/
def natFromDigits (l : List Char) : Nat :=
  l.foldl (fun a c => a * 10 + (c.toNat - 48)) 0

/-- Python `int(s)`: strip whitespace, allow one optional sign, then a
non-empty run of decimal digits; anything else raises `ValueError`
(modelled as `none`).  Digit-grouping underscores and non-ASCII digits,
which never occur in this code base's data, are not modelled. -/
def pyInt (s : String) : Option Int :=
  let cs := (pyStrip s).toList
  match cs with
  | [] => none
  | c :: rest =>
    let signed : Int × List Char :=
      if c = '-' then (-1, rest) else if c = '+' then (1, rest) else (1, cs)
    if signed.2 ≠ [] ∧ signed.2.all Char.isDigit then
      some (signed.1 * (natFromDigits signed.2 : Nat))
    else
      none

/-- Python `int(s)` as a fallible computation. -/
def pyIntE (s : String) : Except PyError Int :=
  match pyInt s with
  | some n => Except.ok n
  | none => Except.error PyError.parseError

/-- models.py `Player`: id, display name, optional country code / image id. -/
structure Player where
  id : String
  name : String
  country_code : Option String := none
  image_id : Option String := none
deriving Repr, DecidableEq

/-- models.py `EventSummary`: a basic event from the listing endpoints
(`inplay` / `upcoming` / `ended`).  The `scores` dictionary is kept as an
association list; no embedded operation reads it. -/
structure EventSummary where
  id : String
  sport_id : String := "92"
  time : String
  time_status : String
  league_id : String
  league_name : String
  league_country_code : Option String := none
  home_player : Player
  away_player : Player
  current_score : String
  game_scores : List (String × List (String × String)) := []
  bet365_id : Option String := none
deriving Repr, DecidableEq

namespace EventSummary

/-- Accessor `event_datetime`: `datetime.fromtimestamp(int(self.time))`.  The datetime
is represented by its integer timestamp; `int()` can raise. -/
def event_datetime (e : EventSummary) : Except PyError Int :=
  pyIntE e.time

/-- Accessor `is_scheduled`: `time_status in ["0", "1"]`. -/
def is_scheduled (e : EventSummary) : Bool :=
  e.time_status = "0" || e.time_status = "1"

/-- Accessor `is_live`: `time_status == "2"`. -/
def is_live (e : EventSummary) : Bool :=
  e.time_status = "2"

/-- Accessor `is_finished`: `time_status == "3"`. -/
def is_finished (e : EventSummary) : Bool :=
  e.time_status = "3"

/-- Python `s.split("-")` for the one-character separator the score strings
use (kernel-reducible, unlike `String.splitOn`). -/
def pySplitDash (s : String) : List String :=
  (s.toList.foldr
    (fun c (acc : List (List Char)) =>
      if c = '-' then [] :: acc
      else
        match acc with
        | [] => [[c]]
        | g :: gs => (c :: g) :: gs)
    [[]]).map (fun g => String.mk g)

/-- Accessor `sets_score`: if `"-" in current_score`, split on `"-"` and convert the
first two parts with `int()` (which raises on malformed parts); otherwise
`(0, 0)`. -/
def sets_score (e : EventSummary) : Except PyError (Int × Int) :=
  if '-' ∈ e.current_score.toList then
    let parts := pySplitDash e.current_score
    do
      let h ← pyIntE (parts.getD 0 "")
      let a ← pyIntE (parts.getD 1 "")
      pure (h, a)
  else
    pure (0, 0)

/-- Method `is_winner(player_name)`: `False` unless finished; otherwise compare the
two components of `sets_score` and test the winning side's name. -/
def is_winner (e : EventSummary) (player_name : String) : Except PyError Bool :=
  if ¬ e.is_finished then
    pure false
  else do
    let ha ← e.sets_score
    if ha.1 > ha.2 then
      pure (e.home_player.name = player_name)
    else if ha.2 > ha.1 then
      pure (e.away_player.name = player_name)
    else
      pure false

end EventSummary

/-- models.py `PaginationInfo`.  Fields are Python ints. -/
structure PaginationInfo where
  page : Int
  per_page : Int
  total : Int
deriving Repr, DecidableEq

namespace PaginationInfo

/-- Accessor `total_pages`: `(total + per_page - 1) // per_page` — Python `//` is
floor division, i.e. `Int.fdiv`. -/
def total_pages (p : PaginationInfo) : Int :=
  Int.fdiv (p.total + p.per_page - 1) p.per_page

/-- Accessor `has_next_page`: `page < total_pages`. -/
def has_next_page (p : PaginationInfo) : Bool :=
  p.page < p.total_pages

/-- Accessor `has_previous_page`: `page > 1`. -/
def has_previous_page (p : PaginationInfo) : Bool :=
  p.page > 1

end PaginationInfo

/-- managers.py response of `get_ended` / `get_upcoming` / `get_inplay`:
an `APIResponse` carrying the parsed events and the optional pager. -/
structure FetchResult where
  results : List EventSummary
  pagination : Option PaginationInfo
deriving Repr, DecidableEq

/-- One page-fetching endpoint: page number to response, or an exception. -/
def Fetcher : Type := Nat → Except PyError FetchResult

/-- The three listing endpoints the aggregation layer consumes
(`get_ended`, `get_upcoming`, `get_inplay`). -/
structure EventsBackend where
  ended : Fetcher
  upcoming : Fetcher
  inplay : Fetcher

/-- One assignment `d[k] = v` on a Python dict modelled as an association
list: insertion-ordered keys, first insertion fixes the position, a later
assignment overwrites the value in place. -/
def pyDictInsert (m : List (String × α)) (k : String) (v : α) : List (String × α) :=
  if m.any (fun p => p.1 = k) then
    m.map (fun p => if p.1 = k then (k, v) else p)
  else
    m ++ [(k, v)]

/-- Build a dict keyed by a projection: `for x in l: d[key(x)] = x`. -/
def pyDictOf (key : α → String) (l : List α) : List (String × α) :=
  l.foldl (fun m x => pyDictInsert m (key x) x) []

/-- The id-keyed deduplication both aggregators perform:
`unique = {}; for m in l: unique[m.id] = m; list(unique.values())`. -/
def dedupeById (l : List EventSummary) : List EventSummary :=
  (pyDictOf EventSummary.id l).map (fun p => p.2)

/-- models.py `PlayerMatchHistory`.  `h2h_records` is a dict
opponent-name → matches; datetimes appear only through `matches`. -/
structure PlayerMatchHistory where
  player_name : String
  «matches» : List EventSummary
  h2h_records : List (String × List EventSummary)
  total_matches : Nat
  win_count : Nat
  loss_count : Nat
  date_range_days : Int
  tournaments : List String
  opponents : List String
deriving Repr, DecidableEq

namespace PlayerMatchHistory

/-- Accessor `win_rate`: `0.0` when `total_matches == 0`, else the exact quotient
`win_count / total_matches` (Python float division, embedded in `ℚ`). -/
def win_rate (h : PlayerMatchHistory) : ℚ :=
  if h.total_matches = 0 then 0
  else (h.win_count : ℚ) / (h.total_matches : ℚ)

/-- Embeds `win_count = sum(1 for match in matches if match.is_winner(player_name))`:
the generator evaluates `is_winner` left to right and the first raise
propagates. -/
def countWins (player_name : String) (ms : List EventSummary) :
    Except PyError Nat :=
  ms.foldlM
    (fun acc m => do
      let w ← m.is_winner player_name
      pure (if w then acc + 1 else acc))
    0

/-- Constructor `PlayerMatchHistory.from_matches`.  `tournaments` keeps the league names
that are truthy (non-empty); `opponents` takes the other side of each match;
both are materialised from Python sets, whose order is unspecified. -/
def from_matches (player_name : String) (ms : List EventSummary)
    (h2h_records : List (String × List EventSummary)) (date_range_days : Int) :
    Except PyError PlayerMatchHistory := do
  let win_count ← countWins player_name ms
  let loss_count := ms.length - win_count
  let tournaments :=
    ((ms.filter (fun m => m.league_name ≠ "")).map
      (fun m => m.league_name)).dedup
  let opponents :=
    (ms.map (fun m =>
      if m.home_player.name = player_name then m.away_player.name
      else m.home_player.name)).dedup
  pure
    { player_name := player_name
      «matches» := ms
      h2h_records := h2h_records
      total_matches := ms.length
      win_count := win_count
      loss_count := loss_count
      date_range_days := date_range_days
      tournaments := tournaments
      opponents := opponents }

end PlayerMatchHistory

/-- models.py `TournamentData`.  `date_range` is the pair
(min, max) of the matches' timestamps, `none` when there are no matches. -/
structure TournamentData where
  tournament_id : String
  tournament_name : String
  «matches» : List EventSummary
  players : List Player
  total_matches : Nat
  completed_matches : Nat
  live_matches : Nat
  upcoming_matches : Nat
  date_range : Option Int × Option Int
  has_odds_data : Bool := false
deriving Repr, DecidableEq

namespace TournamentData

/-- Accessor `completion_rate`: `0.0` when `total_matches == 0`, else the exact
quotient `completed_matches / total_matches`. -/
def completion_rate (t : TournamentData) : ℚ :=
  if t.total_matches = 0 then 0
  else (t.completed_matches : ℚ) / (t.total_matches : ℚ)

/-- The unique-player extraction of `TournamentData.from_matches`: walk the
matches, append home then away player whenever the id is unseen. -/
def uniquePlayers (ms : List EventSummary) : List Player :=
  (ms.foldl
    (fun (st : List Player × List String) m =>
      let st :=
        if m.home_player.id ∈ st.2 then st
        else (st.1 ++ [m.home_player], st.2 ++ [m.home_player.id])
      if m.away_player.id ∈ st.2 then st
      else (st.1 ++ [m.away_player], st.2 ++ [m.away_player.id]))
    ([], [])).1

/-- Constructor `TournamentData.from_matches`.  Computing `dates` evaluates every
match's `event_datetime` (a `datetime` is always truthy), so an unparseable
timestamp raises. -/
def from_matches (tournament_id tournament_name : String)
    (ms : List EventSummary) (has_odds_data : Bool) :
    Except PyError TournamentData := do
  let completed := (ms.filter (fun m => m.is_finished)).length
  let live := (ms.filter (fun m => m.is_live)).length
  let upcoming := (ms.filter (fun m => m.is_scheduled)).length
  let dates ← ms.mapM (fun m => m.event_datetime)
  pure
    { tournament_id := tournament_id
      tournament_name := tournament_name
      «matches» := ms
      players := uniquePlayers ms
      total_matches := ms.length
      completed_matches := completed
      live_matches := live
      upcoming_matches := upcoming
      date_range := (dates.min?, dates.max?)
      has_odds_data := has_odds_data }

end TournamentData

namespace EventsManager

/-- The per-page body of `_get_recent_player_matches`: keep the events whose
home or away name equals `player_name` and whose timestamp is at least the
cutoff.  `event.event_datetime` is only evaluated for name-matching events
(a `datetime` object is always truthy) and its `int()` may raise, failing
the whole page. -/
def filterPlayerPage (player_name : String) (cutoff : Int)
    (results : List EventSummary) : Except PyError (List EventSummary) :=
  results.foldlM
    (fun acc e =>
      if e.home_player.name = player_name ∨ e.away_player.name = player_name then do
        let dt ← e.event_datetime
        pure (if dt ≥ cutoff then acc ++ [e] else acc)
      else
        pure acc)
    []

/-- The page loop of `_get_recent_player_matches`.  Any exception inside an
iteration breaks the loop keeping what previous pages accumulated (the
failing page's own matches are extended only after the page succeeds).  A
pager with `per_page == 0` makes Python's `has_next_page` raise
`ZeroDivisionError`, which this same `except` turns into a break; the
embedded total `has_next_page` returns `false` there, stopping with the
identical accumulator. -/
def recentWalk (fetch : Fetcher) (player_name : String) (cutoff : Int) :
    Nat → Nat → List EventSummary → List EventSummary
  | 0, _, acc => acc
  | fuel + 1, page, acc =>
    match fetch page with
    | Except.error _ => acc
    | Except.ok resp =>
      match filterPlayerPage player_name cutoff resp.results with
      | Except.error _ => acc
      | Except.ok page_matches =>
        let acc' := acc ++ page_matches
        if page_matches.isEmpty ∧ page > 1 then acc'
        else
          match resp.pagination with
          | none => acc'
          | some pg =>
            if pg.has_next_page then recentWalk fetch player_name cutoff fuel (page + 1) acc'
            else acc'

/-- Helper `_get_recent_player_matches`: walk `get_ended` from page 1, at most
`max_pages` pages, with cutoff `now - days` (in seconds). -/
def get_recent_player_matches (b : EventsBackend) (player_name : String)
    (days : Int) (max_pages : Int) (now : Int) : List EventSummary :=
  recentWalk b.ended player_name (now - days * 86400) max_pages.toNat 1 []

/-- Helper `_get_h2h_matches`: re-run the recent-match walk for `player1` capped at
5 pages, then keep the matches whose counter-party is `player2`.  (The
enclosing `try/except` never fires: the walk is total.) -/
def get_h2h_matches (b : EventsBackend) (player1 player2 : String)
    (days : Int) (now : Int) : List EventSummary :=
  (get_recent_player_matches b player1 days 5 now).filter
    (fun m =>
      (if m.home_player.name = player1 then m.away_player.name
       else m.home_player.name) = player2)

/-- The opponent set derived in `get_player_history` (`opponents.add(...)`
inside the match loop).  CPython's set iteration order is unspecified; the
embedding materialises it in `List.dedup` order — no proved statement
depends on which ten opponents the `[:10]` slice keeps. -/
def opponentsOf (player_name : String) (ms : List EventSummary) : List String :=
  (ms.map (fun m =>
    if m.home_player.name = player_name then m.away_player.name
    else m.home_player.name)).dedup

/-- Aggregator `get_player_history`.  The three parameter validations run first (the
source's `not player_name or not player_name.strip()` is equivalent to the
stripped name being empty).  The primary gather and the per-opponent H2H
gathers are total, so their `try/except` wrappers are inert; the only
fallible step after validation is `PlayerMatchHistory.from_matches`, whose
win counting evaluates `is_winner` on every gathered match. -/
def get_player_history (b : EventsBackend) (player_name : String) (days : Int)
    (include_h2h : Bool) (max_pages : Int) (now : Int) :
    Except PyError PlayerMatchHistory :=
  if pyStrip player_name = "" then
    Except.error (PyError.valueError "player_name cannot be empty")
  else if days < 1 ∨ days > 365 then
    Except.error (PyError.valueError "days must be between 1 and 365")
  else if max_pages < 1 ∨ max_pages > 50 then
    Except.error (PyError.valueError "max_pages must be between 1 and 50")
  else
    let all_matches0 := get_recent_player_matches b player_name days max_pages now
    let all_matches := dedupeById all_matches0
    let h2h_records :=
      if include_h2h ∧ all_matches ≠ [] then
        ((opponentsOf player_name all_matches).take 10).foldl
          (fun recs opponent =>
            let h2h := get_h2h_matches b player_name opponent (days * 2) now
            if h2h ≠ [] then pyDictInsert recs opponent h2h else recs)
          []
      else []
    PlayerMatchHistory.from_matches player_name all_matches h2h_records days

/-- The page loop of `_get_tournament_matches`: filter each page to the
events whose `league_id` equals the tournament id; stop on a fetch
exception, an empty filtered page after page 1, or pagination exhaustion
(same `ZeroDivisionError` remark as `recentWalk`). -/
def tournamentWalk (fetch : Fetcher) (tournament_id : String) :
    Nat → Nat → List EventSummary → List EventSummary
  | 0, _, acc => acc
  | fuel + 1, page, acc =>
    match fetch page with
    | Except.error _ => acc
    | Except.ok resp =>
      let tournament_matches :=
        resp.results.filter (fun e => e.league_id = tournament_id)
      let acc' := acc ++ tournament_matches
      if tournament_matches.isEmpty ∧ page > 1 then acc'
      else
        match resp.pagination with
        | none => acc'
        | some pg =>
          if pg.has_next_page then tournamentWalk fetch tournament_id fuel (page + 1) acc'
          else acc'

/-- Helper `_get_tournament_matches`: dispatch on the partition name; an unknown
type breaks immediately with no matches. -/
def get_tournament_matches (b : EventsBackend) (tournament_id : String)
    (match_type : String) (max_pages : Int) : List EventSummary :=
  if match_type = "ended" then tournamentWalk b.ended tournament_id max_pages.toNat 1 []
  else if match_type = "upcoming" then tournamentWalk b.upcoming tournament_id max_pages.toNat 1 []
  else if match_type = "live" then tournamentWalk b.inplay tournament_id max_pages.toNat 1 []
  else []

/-- Python truthiness of the `tournament_name` variable (`None` and the
empty string are falsy). -/
def truthyName : Option String → Bool
  | none => false
  | some s => s ≠ ""

/-- Embeds one `if X_matches and not tournament_name: tournament_name =
X_matches[0].league_name` step of `get_tournament_complete`. -/
def pickName (cur : Option String) : List EventSummary → Option String
  | [] => cur
  | m :: _ => if truthyName cur then cur else some m.league_name

/-- Fallback `if not tournament_name: tournament_name = f"Tournament {id}"`. -/
def finalName (cur : Option String) (tournament_id : String) : String :=
  match cur with
  | none => "Tournament " ++ tournament_id
  | some s => if s = "" then "Tournament " ++ tournament_id else s

/-- The merged (pre-deduplication) match list `get_tournament_complete`
accumulates: ended, then upcoming, then live partition. -/
def tournamentGather (b : EventsBackend) (tournament_id : String)
    (max_pages_per_type : Int) : List EventSummary :=
  get_tournament_matches b tournament_id "ended" max_pages_per_type
    ++ get_tournament_matches b tournament_id "upcoming" max_pages_per_type
    ++ get_tournament_matches b tournament_id "live" max_pages_per_type

/-- Aggregator `get_tournament_complete`.  `oddsTruthy id` stands for
`bool(self.client.odds.get_summary(id))`; a raising sample is swallowed and
counts as no odds.  The per-partition `try/except` wrappers are inert
because the walks are total. -/
def get_tournament_complete (b : EventsBackend)
    (oddsTruthy : String → Except PyError Bool) (tournament_id : String)
    (include_odds : Bool) (max_pages_per_type : Int) :
    Except PyError TournamentData :=
  if pyStrip tournament_id = "" then
    Except.error (PyError.valueError "tournament_id cannot be empty")
  else if max_pages_per_type < 1 ∨ max_pages_per_type > 20 then
    Except.error (PyError.valueError "max_pages_per_type must be between 1 and 20")
  else
    let ended := get_tournament_matches b tournament_id "ended" max_pages_per_type
    let upcoming := get_tournament_matches b tournament_id "upcoming" max_pages_per_type
    let live := get_tournament_matches b tournament_id "live" max_pages_per_type
    let name := pickName (pickName (pickName none ended) upcoming) live
    let all_matches := dedupeById (ended ++ upcoming ++ live)
    let tournament_name := finalName name tournament_id
    let has_odds_data :=
      if include_odds ∧ all_matches ≠ [] then
        0 < (all_matches.take 3).countP
          (fun m => match oddsTruthy m.id with
            | Except.ok v => v
            | Except.error _ => false)
      else false
    TournamentData.from_matches tournament_id tournament_name all_matches has_odds_data

end EventsManager

namespace EventsManager

/-- Mutable state of `get_events_bulk`: the `results` dict and the
`not_found` set (a set of distinct strings, kept as a deduplicated list). -/
structure BulkState where
  found : List (String × EventSummary)
  not_found : List String
deriving Repr, DecidableEq

/-- The inner `for event in response.results` loop of `get_events_bulk`:
record each event whose id is still wanted and remove it from `not_found`.
The optional view/odds enrichment only attaches ad-hoc attributes to the
event object with failures swallowed, so it cannot change this state. -/
def bulkCollect (results : List EventSummary) (st : BulkState) : BulkState :=
  results.foldl
    (fun st e =>
      if e.id ∈ st.not_found then
        { found := pyDictInsert st.found e.id e
          not_found := st.not_found.erase e.id }
      else st)
    st

/-- One partition of `get_events_bulk`'s search.  The page loop
`for page in range(1, 6)` never reaches page 2 against the real managers:
after a non-empty page 1 either every id is found (`break`) or the loop
evaluates `response.pager`, an attribute `APIResponse` does not have, and
the `AttributeError` is caught by the partition-level `except`, which keeps
the collected state and moves to the next partition. -/
def bulkPartition (fetch : Fetcher) (st : BulkState) : BulkState :=
  if st.not_found = [] then st
  else
    match fetch 1 with
    | Except.error _ => st
    | Except.ok resp =>
      if resp.results = [] then st
      else bulkCollect resp.results st

/-- Aggregator `get_events_bulk`: validate, then scan the ended, upcoming and inplay
partitions in order, stopping once nothing is missing.  The ids are already
normalised to strings (`str_event_ids`).  The `include_odds` /
`include_view` flags trigger only the best-effort enrichment described at
`bulkCollect` and never alter the returned mapping's keys. -/
def get_events_bulk (b : EventsBackend) (event_ids : List String)
    (include_odds include_view : Bool) :
    Except PyError (List (String × EventSummary)) :=
  if event_ids = [] then
    Except.error (PyError.valueError "event_ids cannot be empty")
  else if event_ids.length > 100 then
    Except.error (PyError.valueError "Cannot request more than 100 events at once")
  else
    let st0 : BulkState := { found := [], not_found := event_ids.dedup }
    let st := bulkPartition b.inplay (bulkPartition b.upcoming (bulkPartition b.ended st0))
    Except.ok st.found

/-- An id the backend can produce on some page of some partition. -/
def backendHasId (b : EventsBackend) (k : String) : Prop :=
  ∃ f ∈ [b.ended, b.upcoming, b.inplay], ∃ p r,
    f p = Except.ok r ∧ ∃ e ∈ r.results, e.id = k

end EventsManager

/-! Concrete data used to evaluate the embedding: a finished match with a
well-formed score, variants with a malformed score / an unknown status code,
and small backends built from them. -/

/-- A finished match, home player "A" beating away player "B" 3-1. -/
def finishedEvent : EventSummary :=
  { id := "1"
    time := "100"
    time_status := "3"
    league_id := "L"
    league_name := "Cup"
    home_player := { id := "p1", name := "A" }
    away_player := { id := "p2", name := "B" }
    current_score := "3-1" }

/-- The same finished match with a malformed sets-won string: it contains
`"-"` but its second part is not an integer literal. -/
def malformedScoreEvent : EventSummary :=
  { finishedEvent with current_score := "3-x" }

/-- A match whose `time_status` is the unknown code `"4"`: neither
scheduled nor live nor finished. -/
def oddStatusEvent : EventSummary :=
  { finishedEvent with time_status := "4", current_score := "" }

/-- The `TournamentData` that `TournamentData.from_matches` builds from the
single match `oddStatusEvent`. -/
def oddStatusTd : TournamentData :=
  { tournament_id := "L"
    tournament_name := "Cup"
    «matches» := [oddStatusEvent]
    players := [{ id := "p1", name := "A" }, { id := "p2", name := "B" }]
    total_matches := 1
    completed_matches := 0
    live_matches := 0
    upcoming_matches := 0
    date_range := (some 100, some 100)
    has_odds_data := false }

/-- A fetcher that always fails (a partition the backend cannot serve). -/
def failingFetcher : Fetcher := fun _ => Except.error (PyError.valueError "boom")

/-- A fetcher that returns one fixed page of events with no pager. -/
def constFetcher (events : List EventSummary) : Fetcher :=
  fun _ => Except.ok { results := events, pagination := none }

/-- The event with id "X" used by the bulk-lookup scenario. -/
def demoEventX : EventSummary :=
  { finishedEvent with id := "X" }

/-- A backend that only contains the event "X", in its ended partition. -/
def demoBackendX : EventsBackend :=
  { ended := constFetcher [demoEventX]
    upcoming := constFetcher []
    inplay := constFetcher [] }

/-- A backend whose ended partition serves one finished match for player
"A" with the malformed score "3-x". -/
def badHistBackend : EventsBackend :=
  { ended := constFetcher [{ malformedScoreEvent with
      home_player := { id := "p1", name := "A" } }]
    upcoming := constFetcher []
    inplay := constFetcher [] }

/-- A backend with no events at all. -/
def emptyBackend : EventsBackend :=
  { ended := constFetcher []
    upcoming := constFetcher []
    inplay := constFetcher [] }

/-- A finished match whose score string has no "-" at all. -/
def walkoverEvent : EventSummary :=
  { finishedEvent with current_score := "walkover" }

/-- A concrete history record: 3 matches, 2 wins. -/
def sampleHistory : PlayerMatchHistory :=
  { player_name := "A"
    «matches» := [finishedEvent]
    h2h_records := []
    total_matches := 3
    win_count := 2
    loss_count := 1
    date_range_days := 30
    tournaments := ["Cup"]
    opponents := ["B"] }

/-- A concrete tournament record with no matches. -/
def emptyTournament : TournamentData :=
  { tournament_id := "L"
    tournament_name := "Cup"
    «matches» := []
    players := []
    total_matches := 0
    completed_matches := 0
    live_matches := 0
    upcoming_matches := 0
    date_range := (none, none)
    has_odds_data := false }

def sampleFromHistory : PlayerMatchHistory :=
  { player_name := "A"
    «matches» := [finishedEvent]
    h2h_records := []
    total_matches := 1
    win_count := 1
    loss_count := 0
    date_range_days := 30
    tournaments := ["Cup"]
    opponents := ["B"] }

def sampleTournament : TournamentData :=
  { tournament_id := "L"
    tournament_name := "Cup"
    «matches» := [finishedEvent]
    players := [{ id := "p1", name := "A" }, { id := "p2", name := "B" }]
    total_matches := 1
    completed_matches := 1
    live_matches := 0
    upcoming_matches := 0
    date_range := (some 100, some 100)
    has_odds_data := false }

def noOdds : String → Except PyError Bool := fun _ => Except.error (PyError.valueError "no odds")

def demoTournamentX : TournamentData :=
  { tournament_id := "L"
    tournament_name := "Cup"
    «matches» := [demoEventX]
    players := [{ id := "p1", name := "A" }, { id := "p2", name := "B" }]
    total_matches := 1
    completed_matches := 1
    live_matches := 0
    upcoming_matches := 0
    date_range := (some 100, some 100)
    has_odds_data := false }

/-- A match whose win detection cannot raise: if it is finished, its
sets-won string parses. -/
def winnerSafe (e : EventSummary) : Prop :=
  e.is_finished = true → ∃ ha, e.sets_score = Except.ok ha

/-! Reduction lemmas for the `Except` monad, used to unfold the embedded
do-notation in proofs. -/

theorem except_pure_eq_ok {ε α : Type} (a : α) : (pure a : Except ε α) = Except.ok a := rfl

theorem except_ok_bind {ε α β : Type} (a : α) (f : α → Except ε β) :
    (Except.ok a >>= f : Except ε β) = f a := rfl

theorem except_error_bind {ε α β : Type} (e : ε) (f : α → Except ε β) :
    (Except.error e >>= f : Except ε β) = Except.error e := rfl

theorem except_map_ok {ε α β : Type} (f : α → β) (a : α) :
    (f <$> (Except.ok a : Except ε α) : Except ε β) = Except.ok (f a) := rfl

theorem except_map_error {ε α β : Type} (f : α → β) (e : ε) :
    (f <$> (Except.error e : Except ε α) : Except ε β) = Except.error e := rfl

/-- Claim C2: on a finished `EventSummary` whose sets-won string parses to the
pair `(H, A)`, `is_winner name` returns `ok b` where `b = true` exactly when
home wins (`H > A`) and `name` is the home player's name, or away wins
(`A > H`) and `name` is the away player's name — so `H = A` gives `false` for
every name; and on an event that is not finished, `is_winner` returns
`ok false` for every name, regardless of the score string. -/
theorem is_winner_decides_by_sets_score (e : EventSummary) (player_name : String) :
    (e.is_finished = false → e.is_winner player_name = Except.ok false) ∧
    (∀ H A : Int, e.is_finished = true → e.sets_score = Except.ok (H, A) →
      ∃ b : Bool, e.is_winner player_name = Except.ok b ∧
        (b = true ↔ ((H > A ∧ player_name = e.home_player.name) ∨
                     (A > H ∧ player_name = e.away_player.name)))) := by
  constructor
  · intro h
    simp [EventSummary.is_winner, h, except_pure_eq_ok]
  · intro H A hfin hss
    by_cases hHA : H > A
    · refine ⟨decide (e.home_player.name = player_name), ?_, ?_⟩
      · simp [EventSummary.is_winner, hfin, hss, hHA, except_ok_bind, except_pure_eq_ok]
      · simp only [decide_eq_true_eq]
        constructor
        · intro hb; exact Or.inl ⟨hHA, hb.symm⟩
        · rintro (⟨_, hb⟩ | ⟨hAH, _⟩)
          · exact hb.symm
          · exact absurd hAH (lt_asymm hHA)
    · by_cases hAH : A > H
      · refine ⟨decide (e.away_player.name = player_name), ?_, ?_⟩
        · simp [EventSummary.is_winner, hfin, hss, hHA, hAH, except_ok_bind, except_pure_eq_ok]
        · simp only [decide_eq_true_eq]
          constructor
          · intro hb; exact Or.inr ⟨hAH, hb.symm⟩
          · rintro (⟨hHA', _⟩ | ⟨_, hb⟩)
            · exact absurd hHA' hHA
            · exact hb.symm
      · refine ⟨false, ?_, ?_⟩
        · simp [EventSummary.is_winner, hfin, hss, hHA, hAH, except_ok_bind, except_pure_eq_ok]
        · simp [hHA, hAH]

theorem is_winner_decides_by_sets_score_witness :
    finishedEvent.is_winner "A" = Except.ok true := by
  obtain ⟨b, hb, hiff⟩ :=
    (is_winner_decides_by_sets_score finishedEvent "A").2 3 1 (by decide) (by decide)
  have : b = true := hiff.mpr (Or.inl ⟨by norm_num, by decide⟩)
  rw [this] at hb
  exact hb

/-- Claim C4 fails as stated: on a finished event with the malformed score
"3-x" (which contains "-" but whose second part is not an integer literal),
`is_winner` raises the `ValueError` of `int("x")` instead of returning
`False`. -/
theorem is_winner_malformed_raises :
    malformedScoreEvent.is_finished = true ∧
    malformedScoreEvent.is_winner "A" = Except.error PyError.parseError := by
  decide

/-- Claim C4 (amended): on a finished `EventSummary` whose sets-won string
does not contain "-", `sets_score` is `(0, 0)` and `is_winner` returns
`False` for every player name without raising; a malformed score that does
contain "-" instead raises `ValueError` from `int()`, as the counterexample
shows. -/
theorem is_winner_false_without_dash (e : EventSummary) (hfin : e.is_finished = true)
    (hnd : '-' ∉ e.current_score.toList) (player_name : String) :
    e.is_winner player_name = Except.ok false := by
  have hnd' : ¬ '-' ∈ e.current_score.data := by simpa [String.toList] using hnd
  simp [EventSummary.is_winner, EventSummary.sets_score, hfin, hnd',
    except_ok_bind, except_pure_eq_ok]

theorem is_winner_false_without_dash_witness :
    walkoverEvent.is_winner "A" = Except.ok false :=
  is_winner_false_without_dash walkoverEvent (by decide) (by decide) "A"

/-- Claim C7: `win_rate` is `0.0` whenever `total_matches = 0` and otherwise
exactly `win_count / total_matches`; likewise `completion_rate` is `0.0`
whenever `total_matches = 0` and otherwise exactly
`completed_matches / total_matches` — neither accessor ever divides by
zero. -/
theorem rates_guard_zero (h : PlayerMatchHistory) (t : TournamentData) :
    (h.total_matches = 0 → h.win_rate = 0) ∧
    (h.total_matches ≠ 0 → h.win_rate = (h.win_count : ℚ) / (h.total_matches : ℚ)) ∧
    (t.total_matches = 0 → t.completion_rate = 0) ∧
    (t.total_matches ≠ 0 → t.completion_rate = (t.completed_matches : ℚ) / (t.total_matches : ℚ)) := by
  refine ⟨fun h0 => ?_, fun h0 => ?_, fun h0 => ?_, fun h0 => ?_⟩ <;>
    simp [PlayerMatchHistory.win_rate, TournamentData.completion_rate, h0]

theorem rates_guard_zero_witness :
    sampleHistory.win_rate = (2 : ℚ) / 3 ∧ emptyTournament.completion_rate = 0 := by
  constructor
  · have h := (rates_guard_zero sampleHistory emptyTournament).2.1 (by decide)
    rw [h]
    norm_num [sampleHistory]
  · exact (rates_guard_zero sampleHistory emptyTournament).2.2.1 (by decide)

theorem nat_ceil_div_eq (t pp : ℕ) (hpp : 1 ≤ pp) :
    (t + pp - 1) / pp = ⌈(t : ℚ) / (pp : ℚ)⌉₊ := by
  have hpp0 : 0 < pp := hpp
  have hppQ : (0 : ℚ) < pp := by exact_mod_cast hpp0
  rcases Nat.eq_zero_or_pos t with rfl | ht
  · rw [Nat.div_eq_of_lt (by omega : 0 + pp - 1 < pp)]
    simp
  · have h1 : t + pp - 1 = (t - 1) + pp := by omega
    rw [h1, Nat.add_div_right _ hpp0]
    symm
    rw [Nat.ceil_eq_iff (Nat.succ_ne_zero _)]
    constructor
    · have hle : ((t - 1) / pp) * pp ≤ t - 1 := Nat.div_mul_le_self _ _
      have hlt0 : (t - 1) / pp * pp < t := lt_of_le_of_lt hle (Nat.sub_lt ht Nat.one_pos)
      have hlt : (((t - 1) / pp * pp : ℕ) : ℚ) < t := by exact_mod_cast hlt0
      rw [Nat.succ_sub_one]
      rw [lt_div_iff₀ hppQ]
      calc ((((t - 1) / pp : ℕ)) : ℚ) * (pp : ℚ)
          = (((t - 1) / pp * pp : ℕ) : ℚ) := by push_cast; ring
        _ < (t : ℚ) := hlt
    · rw [div_le_iff₀ hppQ]
      have h2 : t - 1 < ((t - 1) / pp + 1) * pp :=
        (Nat.div_lt_iff_lt_mul hpp0).mp (Nat.lt_succ_self _)
      have h3 : t ≤ ((t - 1) / pp + 1) * pp := by omega
      calc (t : ℚ) ≤ ((((t - 1) / pp + 1) * pp : ℕ) : ℚ) := by exact_mod_cast h3
        _ = (((t - 1) / pp + 1 : ℕ) : ℚ) * (pp : ℚ) := by push_cast; ring

/-- Claim C5: for every `PaginationInfo` with `per_page ≥ 1` and `total ≥ 0`,
`total_pages` equals `ceil(total / per_page)` (so it is `0` iff `total = 0`);
in particular page 5 at 50 per page over 1722538 records has 34451 total
pages, with both a next and a previous page. -/
theorem total_pages_is_ceil (p : PaginationInfo) (hpp : 1 ≤ p.per_page) (ht : 0 ≤ p.total) :
    (p.total_pages = ⌈(p.total : ℚ) / (p.per_page : ℚ)⌉ ∧
      (p.total_pages = 0 ↔ p.total = 0)) ∧
    ((PaginationInfo.mk 5 50 1722538).total_pages = 34451 ∧
      (PaginationInfo.mk 5 50 1722538).has_next_page = true ∧
      (PaginationInfo.mk 5 50 1722538).has_previous_page = true) := by
  have hconc : (PaginationInfo.mk 5 50 1722538).total_pages = 34451 ∧
      (PaginationInfo.mk 5 50 1722538).has_next_page = true ∧
      (PaginationInfo.mk 5 50 1722538).has_previous_page = true := by decide
  obtain ⟨tn, htn⟩ := Int.eq_ofNat_of_zero_le ht
  obtain ⟨pn, hpn⟩ := Int.eq_ofNat_of_zero_le (le_trans zero_le_one hpp)
  have hpn1 : 1 ≤ pn := by
    have : (1 : ℤ) ≤ (pn : ℤ) := hpn ▸ hpp
    exact_mod_cast this
  have hrepr : p.total_pages = ((tn + pn - 1) / pn : ℕ) := by
    show Int.fdiv (p.total + p.per_page - 1) p.per_page = _
    rw [htn, hpn, Int.fdiv_eq_ediv _ (by positivity)]
    have harg : ((tn : ℤ) + (pn : ℤ) - 1) = ((tn + pn - 1 : ℕ) : ℤ) := by omega
    rw [harg]
    exact (Int.natCast_ediv _ _).symm
  have hiff : (tn + pn - 1) / pn = 0 ↔ tn = 0 := by
    rw [Nat.div_eq_zero_iff (by omega)]
    omega
  constructor
  · constructor
    · rw [hrepr, htn, hpn]
      have hcast : (((tn : ℤ) : ℚ)) / (((pn : ℤ) : ℚ)) = (tn : ℚ) / (pn : ℚ) := by
        push_cast
        ring
      rw [hcast, ← Int.natCast_ceil_eq_ceil (by positivity), nat_ceil_div_eq tn pn hpn1]
    · rw [hrepr, htn]
      constructor
      · intro h0
        have h1 : (tn + pn - 1) / pn = 0 := by exact_mod_cast h0
        exact_mod_cast congrArg (Nat.cast : ℕ → ℤ) (hiff.mp h1)
      · intro h0
        have h1 : tn = 0 := by exact_mod_cast h0
        exact_mod_cast congrArg (Nat.cast : ℕ → ℤ) (hiff.mpr h1)
  · exact hconc

theorem total_pages_is_ceil_witness :
    (PaginationInfo.mk 5 50 1722538).total_pages =
      ⌈((PaginationInfo.mk 5 50 1722538).total : ℚ) /
        ((PaginationInfo.mk 5 50 1722538).per_page : ℚ)⌉ :=
  (total_pages_is_ceil (PaginationInfo.mk 5 50 1722538) (by decide) (by decide)).1.1

theorem countWinsAux_le (pn : String) (ms : List EventSummary) : ∀ (acc n : Nat),
    ms.foldlM (fun acc m => do
      let w ← m.is_winner pn
      pure (if w then acc + 1 else acc)) acc = Except.ok n → n ≤ acc + ms.length := by
  induction ms with
  | nil =>
    intro acc n h
    simp [List.foldlM_nil, except_pure_eq_ok] at h
    omega
  | cons m ms ih =>
    intro acc n h
    rw [List.foldlM_cons] at h
    cases hw : m.is_winner pn with
    | error e =>
      rw [hw] at h
      simp [except_error_bind] at h
    | ok w =>
      rw [hw] at h
      simp only [except_ok_bind, except_pure_eq_ok] at h
      have := ih (if w then acc + 1 else acc) n h
      simp only [List.length_cons]
      by_cases hwt : w = true <;> simp [hwt] at this <;> omega

theorem countWins_le (pn : String) (ms : List EventSummary) (n : Nat)
    (h : PlayerMatchHistory.countWins pn ms = Except.ok n) : n ≤ ms.length := by
  have := countWinsAux_le pn ms 0 n h
  omega

/-- Claim C8: every `PlayerMatchHistory` produced by
`PlayerMatchHistory.from_matches` satisfies
`win_count + loss_count = total_matches` and `total_matches = len(matches)`. -/
theorem history_counts (player_name : String) (ms : List EventSummary)
    (h2h : List (String × List EventSummary)) (days : Int) (ph : PlayerMatchHistory)
    (h : PlayerMatchHistory.from_matches player_name ms h2h days = Except.ok ph) :
    ph.win_count + ph.loss_count = ph.total_matches ∧ ph.total_matches = ms.length := by
  unfold PlayerMatchHistory.from_matches at h
  cases hw : PlayerMatchHistory.countWins player_name ms with
  | error e =>
    rw [hw] at h
    simp [except_error_bind] at h
  | ok w =>
    rw [hw] at h
    simp only [except_ok_bind, except_pure_eq_ok, Except.ok.injEq] at h
    subst h
    refine ⟨?_, rfl⟩
    have hle := countWins_le player_name ms w hw
    simp only
    omega

theorem history_counts_witness :
    sampleFromHistory.win_count + sampleFromHistory.loss_count = sampleFromHistory.total_matches ∧
    sampleFromHistory.total_matches = [finishedEvent].length :=
  history_counts "A" [finishedEvent] [] 30 sampleFromHistory (by decide)

theorem td_from_matches_fields (tid tname : String) (ms : List EventSummary) (od : Bool)
    (td : TournamentData)
    (h : TournamentData.from_matches tid tname ms od = Except.ok td) :
    td.«matches» = ms ∧ td.total_matches = ms.length ∧
    td.completed_matches = (ms.filter (fun m => m.is_finished)).length ∧
    td.live_matches = (ms.filter (fun m => m.is_live)).length ∧
    td.upcoming_matches = (ms.filter (fun m => m.is_scheduled)).length := by
  unfold TournamentData.from_matches at h
  cases hd : ms.mapM (fun m => m.event_datetime) with
  | error e =>
    rw [hd] at h
    simp [except_error_bind] at h
  | ok dates =>
    rw [hd] at h
    simp only [except_ok_bind, except_pure_eq_ok, Except.ok.injEq] at h
    subst h
    exact ⟨rfl, rfl, rfl, rfl, rfl⟩

theorem status_partition (ms : List EventSummary)
    (h : ∀ e ∈ ms, e.time_status = "0" ∨ e.time_status = "1" ∨
      e.time_status = "2" ∨ e.time_status = "3") :
    (ms.filter (fun m => m.is_finished)).length + (ms.filter (fun m => m.is_live)).length
      + (ms.filter (fun m => m.is_scheduled)).length = ms.length := by
  induction ms with
  | nil => simp
  | cons e ms ih =>
    have he := h e (List.mem_cons_self e ms)
    have ih' := ih (fun x hx => h x (List.mem_cons_of_mem e hx))
    simp only [List.filter_cons, List.length_cons, EventSummary.is_finished,
      EventSummary.is_live, EventSummary.is_scheduled] at ih' ⊢
    rcases he with hst | hst | hst | hst <;> simp [hst] <;> omega

/-- Claim C1 fails as stated: a match whose `time_status` is the unknown code
"4" is counted by none of the three status counters, so
`TournamentData.from_matches` builds a record with
`completed_matches + live_matches + upcoming_matches = 0` yet
`total_matches = 1`. -/
theorem counts_fail_on_unknown_status :
    TournamentData.from_matches "L" "Cup" [oddStatusEvent] false = Except.ok oddStatusTd ∧
    oddStatusTd.completed_matches + oddStatusTd.live_matches + oddStatusTd.upcoming_matches ≠
      oddStatusTd.total_matches := by
  decide

/-- Claim C1 (amended): for every `TournamentData` that
`TournamentData.from_matches` builds from matches whose `time_status` lies in
the four documented codes "0", "1", "2", "3",
`completed_matches + live_matches + upcoming_matches = total_matches`. -/
theorem counts_sum_to_total (tid tname : String) (ms : List EventSummary) (od : Bool)
    (td : TournamentData)
    (hstatus : ∀ e ∈ ms, e.time_status = "0" ∨ e.time_status = "1" ∨
      e.time_status = "2" ∨ e.time_status = "3")
    (h : TournamentData.from_matches tid tname ms od = Except.ok td) :
    td.completed_matches + td.live_matches + td.upcoming_matches = td.total_matches := by
  obtain ⟨-, htot, hc, hl, hu⟩ := td_from_matches_fields tid tname ms od td h
  rw [hc, hl, hu, htot]
  have := status_partition ms hstatus
  omega

theorem counts_sum_to_total_witness :
    sampleTournament.completed_matches + sampleTournament.live_matches +
      sampleTournament.upcoming_matches = sampleTournament.total_matches :=
  counts_sum_to_total "L" "Cup" [finishedEvent] false sampleTournament
    (by decide) (by decide)

theorem pyDictInsert_keys_mem {α : Type} (m : List (String × α)) (k k' : String) (v : α) :
    k' ∈ (pyDictInsert m k v).map Prod.fst ↔ k' ∈ m.map Prod.fst ∨ k' = k := by
  unfold pyDictInsert
  by_cases hany : m.any (fun p => p.1 = k)
  · rw [if_pos hany, List.map_map]
    have hk : k ∈ m.map Prod.fst := by
      rw [List.any_eq_true] at hany
      obtain ⟨p, hp, hpk⟩ := hany
      simp only [decide_eq_true_eq] at hpk
      exact hpk ▸ List.mem_map_of_mem Prod.fst hp
    have : m.map (Prod.fst ∘ fun p => if p.1 = k then (k, v) else p) = m.map Prod.fst := by
      apply List.map_congr_left
      intro p _
      by_cases hp : p.1 = k
      · simp [hp]
      · simp [hp]
    rw [this]
    constructor
    · exact Or.inl
    · rintro (h | rfl)
      · exact h
      · exact hk
  · rw [if_neg hany]
    simp

theorem pyDictInsert_keys_nodup {α : Type} (m : List (String × α)) (k : String) (v : α)
    (h : (m.map Prod.fst).Nodup) : ((pyDictInsert m k v).map Prod.fst).Nodup := by
  unfold pyDictInsert
  by_cases hany : m.any (fun p => p.1 = k)
  · rw [if_pos hany, List.map_map]
    have : m.map (Prod.fst ∘ fun p => if p.1 = k then (k, v) else p) = m.map Prod.fst := by
      apply List.map_congr_left
      intro p _
      by_cases hp : p.1 = k
      · simp [hp]
      · simp [hp]
    rw [this]
    exact h
  · rw [if_neg hany]
    rw [List.map_append]
    simp only [List.map_cons, List.map_nil]
    rw [List.nodup_append]
    refine ⟨h, List.nodup_singleton k, ?_⟩
    intro a ha hk
    simp only [List.mem_singleton] at hk
    subst hk
    rw [List.any_eq_true] at hany
    obtain ⟨p, hp, rfl⟩ := List.mem_map.mp ha
    exact hany ⟨p, hp, by simp⟩

theorem pyDictInsert_snd {α : Type} (keyf : α → String) (m : List (String × α))
    (k : String) (v : α) (hm : ∀ p ∈ m, keyf p.2 = p.1) (hv : keyf v = k) :
    ∀ p ∈ pyDictInsert m k v, keyf p.2 = p.1 := by
  unfold pyDictInsert
  by_cases hany : m.any (fun p => p.1 = k)
  · rw [if_pos hany]
    intro p hp
    obtain ⟨q, hq, hqp⟩ := List.mem_map.mp hp
    by_cases hqk : q.1 = k
    · rw [if_pos hqk] at hqp
      rw [← hqp]
      exact hv
    · rw [if_neg hqk] at hqp
      exact hqp ▸ hm q hq
  · rw [if_neg hany]
    intro p hp
    rcases List.mem_append.mp hp with h | h
    · exact hm p h
    · simp only [List.mem_singleton] at h
      subst h
      exact hv

theorem pyDictInsert_mem_or {α : Type} (m : List (String × α)) (k : String) (v : α) :
    ∀ p ∈ pyDictInsert m k v, p ∈ m ∨ p = (k, v) := by
  unfold pyDictInsert
  by_cases hany : m.any (fun p => p.1 = k)
  · rw [if_pos hany]
    intro p hp
    obtain ⟨q, hq, hqp⟩ := List.mem_map.mp hp
    by_cases hqk : q.1 = k
    · rw [if_pos hqk] at hqp
      right
      exact hqp.symm
    · rw [if_neg hqk] at hqp
      left
      exact hqp ▸ hq
  · rw [if_neg hany]
    intro p hp
    rcases List.mem_append.mp hp with h | h
    · exact Or.inl h
    · right
      simpa using h

theorem pyDictOf_fold_keys_nodup {α : Type} (key : α → String) (l : List α) :
    ∀ (m : List (String × α)), ((m.map Prod.fst).Nodup) →
      (((l.foldl (fun m x => pyDictInsert m (key x) x) m)).map Prod.fst).Nodup := by
  induction l with
  | nil => intro m hm; exact hm
  | cons x l ih =>
    intro m hm
    exact ih (pyDictInsert m (key x) x) (pyDictInsert_keys_nodup m (key x) x hm)

theorem pyDictOf_fold_keys_mem {α : Type} (key : α → String) (l : List α) :
    ∀ (m : List (String × α)) (k : String),
      (k ∈ (l.foldl (fun m x => pyDictInsert m (key x) x) m).map Prod.fst ↔
        k ∈ m.map Prod.fst ∨ k ∈ l.map key) := by
  induction l with
  | nil => intro m k; simp
  | cons x l ih =>
    intro m k
    rw [List.foldl_cons, ih (pyDictInsert m (key x) x) k, pyDictInsert_keys_mem]
    simp only [List.map_cons, List.mem_cons]
    tauto

theorem pyDictOf_fold_snd {α : Type} (key : α → String) (l : List α) :
    ∀ (m : List (String × α)), (∀ p ∈ m, key p.2 = p.1) →
      ∀ p ∈ l.foldl (fun m x => pyDictInsert m (key x) x) m, key p.2 = p.1 := by
  induction l with
  | nil => intro m hm; exact hm
  | cons x l ih =>
    intro m hm
    exact ih (pyDictInsert m (key x) x) (pyDictInsert_snd key m (key x) x hm rfl)

theorem pyDictOf_fold_mem_or {α : Type} (key : α → String) (l : List α) :
    ∀ (m : List (String × α)) (p : String × α),
      p ∈ l.foldl (fun m x => pyDictInsert m (key x) x) m → p ∈ m ∨ p.2 ∈ l := by
  induction l with
  | nil =>
    intro m p hp
    exact Or.inl hp
  | cons x l ih =>
    intro m p hp
    rcases ih (pyDictInsert m (key x) x) p hp with h | h
    · rcases pyDictInsert_mem_or m (key x) x p h with h' | h'
      · exact Or.inl h'
      · right
        rw [h']
        exact List.mem_cons_self x l
    · right
      exact List.mem_cons_of_mem x h

theorem pyDictOf_keys_nodup {α : Type} (key : α → String) (l : List α) :
    ((pyDictOf key l).map Prod.fst).Nodup :=
  pyDictOf_fold_keys_nodup key l [] (by simp)

theorem pyDictOf_keys_mem {α : Type} (key : α → String) (l : List α) (k : String) :
    k ∈ (pyDictOf key l).map Prod.fst ↔ k ∈ l.map key := by
  rw [pyDictOf, pyDictOf_fold_keys_mem]
  simp

theorem pyDictOf_snd {α : Type} (key : α → String) (l : List α) :
    ∀ p ∈ pyDictOf key l, key p.2 = p.1 :=
  pyDictOf_fold_snd key l [] (by simp)

theorem dedupeById_ids_eq_keys (l : List EventSummary) :
    (dedupeById l).map EventSummary.id = (pyDictOf EventSummary.id l).map Prod.fst := by
  rw [dedupeById, List.map_map]
  apply List.map_congr_left
  intro p hp
  exact pyDictOf_snd EventSummary.id l p hp

theorem dedupeById_ids_nodup (l : List EventSummary) :
    ((dedupeById l).map EventSummary.id).Nodup := by
  rw [dedupeById_ids_eq_keys]
  exact pyDictOf_keys_nodup EventSummary.id l

theorem dedupeById_ids_mem (l : List EventSummary) (k : String) :
    k ∈ (dedupeById l).map EventSummary.id ↔ k ∈ l.map EventSummary.id := by
  rw [dedupeById_ids_eq_keys]
  exact pyDictOf_keys_mem EventSummary.id l k

theorem dedupeById_sub (l : List EventSummary) :
    ∀ e ∈ dedupeById l, e ∈ l := by
  intro e he
  rw [dedupeById] at he
  obtain ⟨p, hp, hpe⟩ := List.mem_map.mp he
  rcases pyDictOf_fold_mem_or EventSummary.id l [] p hp with h | h
  · simp at h
  · exact hpe ▸ h

theorem gtc_matches_eq (b : EventsBackend) (oddsTruthy : String → Except PyError Bool)
    (tid : String) (io : Bool) (mp : Int) (td : TournamentData)
    (h : EventsManager.get_tournament_complete b oddsTruthy tid io mp = Except.ok td) :
    td.«matches» = dedupeById (EventsManager.tournamentGather b tid mp) := by
  unfold EventsManager.get_tournament_complete at h
  split_ifs at h
  exact (td_from_matches_fields _ _ _ _ td h).1

/-- Claim C9: the match list of every `TournamentData` returned by
`get_tournament_complete` is deduplicated by match id — its ids are pairwise
distinct, and every match gathered from the three status partitions (in
particular one returned by two different partitions) contributes exactly one
entry with its id. -/
theorem tournament_matches_deduped (b : EventsBackend)
    (oddsTruthy : String → Except PyError Bool) (tid : String) (io : Bool) (mp : Int)
    (td : TournamentData)
    (h : EventsManager.get_tournament_complete b oddsTruthy tid io mp = Except.ok td) :
    (td.«matches».map EventSummary.id).Nodup ∧
    ∀ e ∈ EventsManager.tournamentGather b tid mp,
      (td.«matches».map EventSummary.id).count e.id = 1 := by
  have hm := gtc_matches_eq b oddsTruthy tid io mp td h
  rw [hm]
  refine ⟨dedupeById_ids_nodup _, ?_⟩
  intro e he
  apply List.count_eq_one_of_mem (dedupeById_ids_nodup _)
  rw [dedupeById_ids_mem]
  exact List.mem_map_of_mem EventSummary.id he

theorem tournament_matches_deduped_witness :
    (demoTournamentX.«matches».map EventSummary.id).Nodup ∧
    ∀ e ∈ EventsManager.tournamentGather demoBackendX "L" 10,
      (demoTournamentX.«matches».map EventSummary.id).count e.id = 1 :=
  tournament_matches_deduped demoBackendX noOdds "L" false 10 demoTournamentX (by decide)

theorem bulkCollect_cons (e : EventSummary) (rs : List EventSummary)
    (st : EventsManager.BulkState) :
    EventsManager.bulkCollect (e :: rs) st =
      EventsManager.bulkCollect rs
        (if e.id ∈ st.not_found then
          { found := pyDictInsert st.found e.id e
            not_found := st.not_found.erase e.id }
         else st) := rfl

theorem bulkCollect_inv (ids : List String) (results : List EventSummary) :
    ∀ st : EventsManager.BulkState,
      (∀ k ∈ st.not_found, k ∈ ids) →
      (∀ p ∈ st.found, p.1 ∈ ids ∧ p.2.id = p.1) →
      (∀ k ∈ (EventsManager.bulkCollect results st).not_found, k ∈ ids) ∧
      (∀ p ∈ (EventsManager.bulkCollect results st).found, p.1 ∈ ids ∧ p.2.id = p.1) := by
  induction results with
  | nil => intro st h1 h2; exact ⟨h1, h2⟩
  | cons e rs ih =>
    intro st h1 h2
    rw [bulkCollect_cons]
    by_cases he : e.id ∈ st.not_found
    · rw [if_pos he]
      apply ih
      · intro k hk
        exact h1 k (List.mem_of_mem_erase hk)
      · intro p hp
        rcases pyDictInsert_mem_or st.found e.id e p hp with h | h
        · exact h2 p h
        · subst h
          exact ⟨h1 e.id he, rfl⟩
    · rw [if_neg he]
      exact ih st h1 h2

theorem bulkCollect_not_mem (k : String) (results : List EventSummary) :
    ∀ st : EventsManager.BulkState,
      (∀ p ∈ st.found, p.1 ≠ k) → (∀ e ∈ results, e.id ≠ k) →
      ∀ p ∈ (EventsManager.bulkCollect results st).found, p.1 ≠ k := by
  induction results with
  | nil => intro st h1 _; exact h1
  | cons e rs ih =>
    intro st h1 h2
    rw [bulkCollect_cons]
    by_cases he : e.id ∈ st.not_found
    · rw [if_pos he]
      apply ih
      · intro p hp
        rcases pyDictInsert_mem_or st.found e.id e p hp with h | h
        · exact h1 p h
        · subst h
          exact h2 e (List.mem_cons_self e rs)
      · intro x hx
        exact h2 x (List.mem_cons_of_mem e hx)
    · rw [if_neg he]
      exact ih st h1 (fun x hx => h2 x (List.mem_cons_of_mem e hx))

theorem bulkPartition_inv (ids : List String) (fetch : Fetcher) (st : EventsManager.BulkState)
    (h1 : ∀ k ∈ st.not_found, k ∈ ids)
    (h2 : ∀ p ∈ st.found, p.1 ∈ ids ∧ p.2.id = p.1) :
    (∀ k ∈ (EventsManager.bulkPartition fetch st).not_found, k ∈ ids) ∧
    (∀ p ∈ (EventsManager.bulkPartition fetch st).found, p.1 ∈ ids ∧ p.2.id = p.1) := by
  unfold EventsManager.bulkPartition
  split
  · exact ⟨h1, h2⟩
  · split
    · exact ⟨h1, h2⟩
    · split
      · exact ⟨h1, h2⟩
      · exact bulkCollect_inv ids _ st h1 h2

theorem bulkPartition_not_mem (k : String) (fetch : Fetcher) (st : EventsManager.BulkState)
    (hf : ∀ p r, fetch p = Except.ok r → ∀ e ∈ r.results, e.id ≠ k)
    (hst : ∀ p ∈ st.found, p.1 ≠ k) :
    ∀ p ∈ (EventsManager.bulkPartition fetch st).found, p.1 ≠ k := by
  unfold EventsManager.bulkPartition
  split
  · exact hst
  · rename_i hnf
    split
    · exact hst
    · rename_i resp hfe
      split
      · exact hst
      · exact bulkCollect_not_mem k resp.results st hst (hf 1 resp hfe)

/-- Claim C6: for every non-empty list of at most 100 requested ids,
`get_events_bulk` returns without error a mapping in which every key is a
requested id bound to an event carrying that id, and a requested id that no
backend partition can produce is silently absent rather than an error — in
particular, against a backend that only contains "X", requesting
["X", "Y"] yields the one-entry map binding "X". -/
theorem bulk_found_keys (b : EventsBackend) (event_ids : List String) (io iv : Bool)
    (h1 : event_ids ≠ []) (h2 : event_ids.length ≤ 100) :
    ∃ m, EventsManager.get_events_bulk b event_ids io iv = Except.ok m ∧
      (∀ p ∈ m, p.1 ∈ event_ids ∧ p.2.id = p.1) ∧
      (∀ k, ¬ EventsManager.backendHasId b k → ∀ p ∈ m, p.1 ≠ k) ∧
      EventsManager.get_events_bulk demoBackendX ["X", "Y"] false false =
        Except.ok [("X", demoEventX)] := by
  have hlen : ¬ event_ids.length > 100 := by omega
  have hmain : EventsManager.get_events_bulk b event_ids io iv = Except.ok
      (EventsManager.bulkPartition b.inplay (EventsManager.bulkPartition b.upcoming
        (EventsManager.bulkPartition b.ended
          { found := [], not_found := event_ids.dedup }))).found := by
    rw [EventsManager.get_events_bulk, if_neg h1, if_neg hlen]
  refine ⟨_, hmain, ?_, ?_, by decide⟩
  · have hstep :=
      bulkPartition_inv event_ids b.ended
        { found := [], not_found := event_ids.dedup }
        (fun k hk => List.mem_dedup.mp hk) (by intro p hp; simp at hp)
    have hstep2 := bulkPartition_inv event_ids b.upcoming _ hstep.1 hstep.2
    have hstep3 := bulkPartition_inv event_ids b.inplay _ hstep2.1 hstep2.2
    exact hstep3.2
  · intro k hk
    have hfe : ∀ f ∈ [b.ended, b.upcoming, b.inplay],
        ∀ p r, f p = Except.ok r → ∀ e ∈ r.results, e.id ≠ k := by
      intro f hf p r hr e he heq
      exact hk ⟨f, hf, p, r, hr, e, he, heq⟩
    have hstep :=
      bulkPartition_not_mem k b.ended { found := [], not_found := event_ids.dedup }
        (hfe b.ended (by simp)) (by intro p hp; simp at hp)
    have hstep2 := bulkPartition_not_mem k b.upcoming _ (hfe b.upcoming (by simp)) hstep
    exact bulkPartition_not_mem k b.inplay _ (hfe b.inplay (by simp)) hstep2

theorem bulk_found_keys_witness :
    EventsManager.get_events_bulk demoBackendX ["X", "Y"] false false =
      Except.ok [("X", demoEventX)] := by
  obtain ⟨m, -, -, -, hconc⟩ :=
    bulk_found_keys demoBackendX ["X", "Y"] false false (by decide) (by decide)
  exact hconc

theorem pyIntE_eq_ok (s : String) (n : Int) (h : pyInt s = some n) :
    pyIntE s = Except.ok n := by
  simp [pyIntE, h]

theorem pyIntE_eq_error (s : String) (h : pyInt s = none) :
    pyIntE s = Except.error PyError.parseError := by
  simp [pyIntE, h]

theorem sets_score_error_is_parse (e : EventSummary) (err : PyError)
    (h : e.sets_score = Except.error err) : err = PyError.parseError := by
  unfold EventSummary.sets_score at h
  split_ifs at h
  · dsimp only at h
    cases h0 : pyInt ((EventSummary.pySplitDash e.current_score).getD 0 "") with
    | none =>
      rw [pyIntE_eq_error _ h0, except_error_bind] at h
      exact (Except.error.inj h).symm
    | some n0 =>
      rw [pyIntE_eq_ok _ _ h0, except_ok_bind] at h
      cases h1 : pyInt ((EventSummary.pySplitDash e.current_score).getD 1 "") with
      | none =>
        rw [pyIntE_eq_error _ h1] at h
        simp [except_map_error] at h
        exact h.symm
      | some n1 =>
        rw [pyIntE_eq_ok _ _ h1] at h
        simp [except_map_ok] at h
  · simp [except_pure_eq_ok] at h

theorem is_winner_classify (e : EventSummary) (n : String) :
    (∃ w, e.is_winner n = Except.ok w) ∨
    e.is_winner n = Except.error PyError.parseError := by
  unfold EventSummary.is_winner
  split
  · exact Or.inl ⟨false, rfl⟩
  · cases hss : e.sets_score with
    | error err =>
      have herr := sets_score_error_is_parse e err hss
      subst herr
      right
      rw [except_error_bind]
    | ok ha =>
      left
      rw [except_ok_bind]
      split_ifs <;> exact ⟨_, rfl⟩

theorem is_winner_ok_of_safe (e : EventSummary) (hs : winnerSafe e) (n : String) :
    ∃ w, e.is_winner n = Except.ok w := by
  unfold EventSummary.is_winner
  split
  · exact ⟨false, rfl⟩
  · rename_i hfin
    rw [Bool.not_eq_true, ← ne_eq, ne_eq, Bool.not_eq_false] at hfin
    obtain ⟨ha, hss⟩ := hs hfin
    rw [hss, except_ok_bind]
    split_ifs <;> exact ⟨_, rfl⟩

theorem countWinsAux_classify (pn : String) (ms : List EventSummary) :
    ∀ acc : Nat,
      (∃ n, ms.foldlM (fun acc m => do
        let w ← m.is_winner pn
        pure (if w then acc + 1 else acc)) acc = Except.ok n) ∨
      ms.foldlM (fun acc m => do
        let w ← m.is_winner pn
        pure (if w then acc + 1 else acc)) acc = Except.error PyError.parseError := by
  induction ms with
  | nil =>
    intro acc
    exact Or.inl ⟨acc, rfl⟩
  | cons m ms ih =>
    intro acc
    rw [List.foldlM_cons]
    rcases is_winner_classify m pn with ⟨w, hw⟩ | hw
    · rw [hw]
      simp only [except_ok_bind, except_pure_eq_ok]
      exact ih (if w then acc + 1 else acc)
    · rw [hw]
      right
      simp only [except_error_bind]

theorem countWins_classify (pn : String) (ms : List EventSummary) :
    (∃ n, PlayerMatchHistory.countWins pn ms = Except.ok n) ∨
    PlayerMatchHistory.countWins pn ms = Except.error PyError.parseError :=
  countWinsAux_classify pn ms 0

theorem countWinsAux_ok_of_safe (pn : String) (ms : List EventSummary)
    (hs : ∀ e ∈ ms, winnerSafe e) :
    ∀ acc : Nat, ∃ n, ms.foldlM (fun acc m => do
      let w ← m.is_winner pn
      pure (if w then acc + 1 else acc)) acc = Except.ok n := by
  induction ms with
  | nil =>
    intro acc
    exact ⟨acc, rfl⟩
  | cons m ms ih =>
    intro acc
    rw [List.foldlM_cons]
    obtain ⟨w, hw⟩ := is_winner_ok_of_safe m (hs m (List.mem_cons_self m ms)) pn
    rw [hw]
    simp only [except_ok_bind, except_pure_eq_ok]
    exact ih (fun e he => hs e (List.mem_cons_of_mem m he)) (if w then acc + 1 else acc)

theorem from_matches_classify (pn : String) (ms : List EventSummary)
    (h2h : List (String × List EventSummary)) (days : Int) :
    (∃ h, PlayerMatchHistory.from_matches pn ms h2h days = Except.ok h) ∨
    PlayerMatchHistory.from_matches pn ms h2h days = Except.error PyError.parseError := by
  unfold PlayerMatchHistory.from_matches
  rcases countWins_classify pn ms with ⟨n, hn⟩ | hn
  · rw [hn]
    exact Or.inl ⟨_, rfl⟩
  · rw [hn]
    right
    rw [except_error_bind]

theorem from_matches_ok_of_safe (pn : String) (ms : List EventSummary)
    (h2h : List (String × List EventSummary)) (days : Int)
    (hs : ∀ e ∈ ms, winnerSafe e) :
    ∃ h, PlayerMatchHistory.from_matches pn ms h2h days = Except.ok h := by
  unfold PlayerMatchHistory.from_matches
  obtain ⟨n, hn⟩ : ∃ n, PlayerMatchHistory.countWins pn ms = Except.ok n :=
    countWinsAux_ok_of_safe pn ms hs 0
  rw [hn]
  exact ⟨_, rfl⟩

theorem filterPlayerPageAux_sub (pn : String) (cutoff : Int) (results : List EventSummary) :
    ∀ (acc out : List EventSummary),
      results.foldlM (fun acc e =>
        if e.home_player.name = pn ∨ e.away_player.name = pn then do
          let dt ← e.event_datetime
          pure (if dt ≥ cutoff then acc ++ [e] else acc)
        else pure acc) acc = Except.ok out →
      ∀ e ∈ out, e ∈ acc ∨ e ∈ results := by
  induction results with
  | nil =>
    intro acc out h e he
    simp only [List.foldlM_nil, except_pure_eq_ok, Except.ok.injEq] at h
    subst h
    exact Or.inl he
  | cons r rs ih =>
    intro acc out h e he
    rw [List.foldlM_cons] at h
    by_cases hname : r.home_player.name = pn ∨ r.away_player.name = pn
    · rw [if_pos hname] at h
      cases hdt : r.event_datetime with
      | error err =>
        rw [hdt, except_error_bind, except_error_bind] at h
        cases h
      | ok dt =>
        rw [hdt] at h
        simp only [except_ok_bind, except_pure_eq_ok] at h
        rcases ih _ out h e he with hacc | hrs
        · by_cases hcut : dt ≥ cutoff
          · rw [if_pos hcut] at hacc
            rcases List.mem_append.mp hacc with h' | h'
            · exact Or.inl h'
            · right
              simp only [List.mem_singleton] at h'
              exact h' ▸ List.mem_cons_self r rs
          · rw [if_neg hcut] at hacc
            exact Or.inl hacc
        · exact Or.inr (List.mem_cons_of_mem r hrs)
    · rw [if_neg hname, except_pure_eq_ok, except_ok_bind] at h
      rcases ih acc out h e he with h' | h'
      · exact Or.inl h'
      · exact Or.inr (List.mem_cons_of_mem r h')

theorem filterPlayerPage_sub (pn : String) (cutoff : Int) (results out : List EventSummary)
    (h : EventsManager.filterPlayerPage pn cutoff results = Except.ok out) :
    ∀ e ∈ out, e ∈ results := by
  intro e he
  rcases filterPlayerPageAux_sub pn cutoff results [] out h e he with h' | h'
  · simp at h'
  · exact h'

theorem recentWalk_inv (fetch : Fetcher) (pn : String) (cutoff : Int)
    (P : EventSummary → Prop)
    (hf : ∀ p r, fetch p = Except.ok r → ∀ e ∈ r.results, P e) :
    ∀ (fuel page : Nat) (acc : List EventSummary), (∀ e ∈ acc, P e) →
      ∀ e ∈ EventsManager.recentWalk fetch pn cutoff fuel page acc, P e := by
  intro fuel
  induction fuel with
  | zero =>
    intro page acc hacc e he
    exact hacc e he
  | succ fuel ih =>
    intro page acc hacc e he
    rw [EventsManager.recentWalk] at he
    split at he
    · exact hacc e he
    · rename_i resp hfe
      split at he
      · exact hacc e he
      · rename_i pm hpm
        have hacc' : ∀ e ∈ acc ++ pm, P e := by
          intro x hx
          rcases List.mem_append.mp hx with h' | h'
          · exact hacc x h'
          · exact hf page resp hfe x (filterPlayerPage_sub pn cutoff resp.results pm hpm x h')
        split at he
        · exact hacc' e he
        · split at he
          · exact hacc' e he
          · split at he
            · exact ih (page + 1) (acc ++ pm) hacc' e he
            · exact hacc' e he

/-- Claim C3 fails as stated: against a backend whose ended partition serves a
finished match for player "A" with the malformed score "3-x",
`get_player_history` passes its three parameter validations and then
propagates the `ValueError` raised by `int("x")` inside the win-count
computation of `PlayerMatchHistory.from_matches` (which runs outside every
`try/except`), instead of returning a `PlayerMatchHistory`. -/
theorem player_history_raises_on_bad_score :
    EventsManager.get_player_history badHistBackend "A" 30 false 10 100 =
      Except.error PyError.parseError := by
  decide

/-- Claim C3 (amended): once its three parameter validations pass,
`get_player_history` returns a valid (possibly empty) `PlayerMatchHistory`
for every backend whose events are winner-safe (every finished event's
sets-won string parses); page-fetch exceptions are absorbed by the walk, and
the win-count computation is the only step that can still raise, as the
counterexample shows. -/
theorem player_history_ok_of_safe (b : EventsBackend) (player_name : String)
    (days : Int) (include_h2h : Bool) (max_pages : Int) (now : Int)
    (hname : pyStrip player_name ≠ "")
    (hdays : 1 ≤ days ∧ days ≤ 365) (hmp : 1 ≤ max_pages ∧ max_pages ≤ 50)
    (hsafe : ∀ p r, b.ended p = Except.ok r → ∀ e ∈ r.results, winnerSafe e) :
    ∃ h, EventsManager.get_player_history b player_name days include_h2h max_pages now =
      Except.ok h := by
  unfold EventsManager.get_player_history
  rw [if_neg hname, if_neg (by omega), if_neg (by omega)]
  apply from_matches_ok_of_safe
  intro e he
  have hsub := dedupeById_sub _ e he
  exact recentWalk_inv b.ended player_name (now - days * 86400) winnerSafe hsafe
    max_pages.toNat 1 [] (by simp) e hsub

theorem player_history_ok_of_safe_witness :
    ∃ h, EventsManager.get_player_history demoBackendX "A" 30 false 10 100 =
      Except.ok h := by
  apply player_history_ok_of_safe demoBackendX "A" 30 false 10 100
    (by decide) (by decide) (by decide)
  intro p r hr e he
  have hre : r = { results := [demoEventX], pagination := none } := by
    have : Except.ok { results := [demoEventX], pagination := none } =
        (Except.ok r : Except PyError FetchResult) := hr
    exact (Except.ok.inj this).symm
  subst hre
  simp only [List.mem_singleton] at he
  subst he
  intro hfin
  exact ⟨(3, 1), by decide⟩

/-- Claim C10: `get_player_history` raises a validation `ValueError` iff the
trimmed player name is empty, or `days` lies outside `[1, 365]`, or
`max_pages` lies outside `[1, 50]`; and when some validation fails, the
result is the same error for every backend and every clock value — the
validation error is raised immediately, before any fetch. -/
theorem player_history_validation (b : EventsBackend) (player_name : String)
    (days : Int) (include_h2h : Bool) (max_pages : Int) (now : Int) :
    ((∃ msg, EventsManager.get_player_history b player_name days include_h2h max_pages now =
        Except.error (PyError.valueError msg)) ↔
      (pyStrip player_name = "" ∨ days < 1 ∨ days > 365 ∨ max_pages < 1 ∨ max_pages > 50)) ∧
    ((pyStrip player_name = "" ∨ days < 1 ∨ days > 365 ∨ max_pages < 1 ∨ max_pages > 50) →
      ∀ (b' : EventsBackend) (now' : Int),
        EventsManager.get_player_history b player_name days include_h2h max_pages now =
        EventsManager.get_player_history b' player_name days include_h2h max_pages now') := by
  constructor
  · constructor
    · rintro ⟨msg, hmsg⟩
      by_contra hc
      push_neg at hc
      obtain ⟨hn, h1, h2, h3, h4⟩ := hc
      unfold EventsManager.get_player_history at hmsg
      rw [if_neg hn, if_neg (by omega), if_neg (by omega)] at hmsg
      dsimp only at hmsg
      rcases from_matches_classify player_name _ _ days with ⟨x, hx⟩ | hx
      · rw [hx] at hmsg
        cases hmsg
      · rw [hx] at hmsg
        cases hmsg
    · intro hcond
      by_cases hn : pyStrip player_name = ""
      · refine ⟨"player_name cannot be empty", ?_⟩
        unfold EventsManager.get_player_history
        rw [if_pos hn]
      · by_cases hd : days < 1 ∨ days > 365
        · refine ⟨"days must be between 1 and 365", ?_⟩
          unfold EventsManager.get_player_history
          rw [if_neg hn, if_pos hd]
        · have hm : max_pages < 1 ∨ max_pages > 50 := by
            rcases hcond with h | h | h | h | h
            · exact absurd h hn
            · exact absurd (Or.inl h) hd
            · exact absurd (Or.inr h) hd
            · exact Or.inl h
            · exact Or.inr h
          refine ⟨"max_pages must be between 1 and 50", ?_⟩
          unfold EventsManager.get_player_history
          rw [if_neg hn, if_neg hd, if_pos hm]
  · intro hcond b' now'
    unfold EventsManager.get_player_history
    by_cases hn : pyStrip player_name = ""
    · rw [if_pos hn, if_pos hn]
    · by_cases hd : days < 1 ∨ days > 365
      · rw [if_neg hn, if_neg hn, if_pos hd, if_pos hd]
      · have hm : max_pages < 1 ∨ max_pages > 50 := by
          rcases hcond with h | h | h | h | h
          · exact absurd h hn
          · exact absurd (Or.inl h) hd
          · exact absurd (Or.inr h) hd
          · exact Or.inl h
          · exact Or.inr h
        rw [if_neg hn, if_neg hn, if_neg hd, if_neg hd, if_pos hm, if_pos hm]

theorem player_history_validation_witness :
    ∃ msg, EventsManager.get_player_history emptyBackend "  " 30 true 10 0 =
      Except.error (PyError.valueError msg) :=
  (player_history_validation emptyBackend "  " 30 true 10 0).1.mpr (Or.inl (by decide))
